import Mathlib

/-!
Shallow embedding of the `limiter` Go package (limiter.go, options.go).

Go `Limit` is `uint64`; uint64 values are modelled as `Nat` with explicit
wrap-around (`% 2 ^ 64`) at the operations where the source can overflow or
underflow.  `time.Duration` is Go `int64` nanoseconds, modelled as `Int`
wrapped into the int64 range where a duration is stored.
-/

namespace RL

/-- Modulus of Go `uint64` arithmetic. -/
def uint64Mod : Nat := 2 ^ 64

/-- Go source: `const Infinite Limit = math.MaxUint64` (limiter.go line 16). -/
def Infinite : Nat := 2 ^ 64 - 1

/-- Go source: `const defaultInterval = time.Hour`, in nanoseconds (limiter.go line 19). -/
def defaultInterval : Int := 3600 * 1000000000

/-- Go uint64 subtraction `a - b` with wrap-around, for operands below `2 ^ 64`. -/
def sub64 (a b : Nat) : Nat := (a + (uint64Mod - b % uint64Mod)) % uint64Mod

/-- Go `int(u)` conversion of a `uint64` value: two's-complement
reinterpretation into the signed 64-bit range. -/
def toInt64 (u : Nat) : Int :=
  if u % uint64Mod < 2 ^ 63 then (u % uint64Mod : Int) else (u % uint64Mod : Int) - 2 ^ 64

/-- Wrap an `Int` into the int64 range, as storing into a Go `int64`
(`time.Duration`) does. -/
def wrapInt64 (d : Int) : Int := (d + 2 ^ 63) % 2 ^ 64 - 2 ^ 63

/-- Go integer division: truncated toward zero; division by zero is a
run-time panic, modelled as `none`. -/
def goDiv (a b : Int) : Option Int := if b = 0 then none else some (Int.tdiv a b)

/-- Go `int(d.Seconds())` for a duration of `d` nanoseconds.
`Duration.Seconds` returns `float64(sec) + float64(nsec)/1e9`; converting
that to `int` truncates toward zero, which for durations in the exactly
representable float64 range equals truncated division by `1e9`. -/
def intSeconds (d : Int) : Int := Int.tdiv d 1000000000

/-- The mutable state of a `Limiter` (limiter.go lines 22-31).  The
`sync.RWMutex` and the `done` channel are modelled separately (lock
occupancy in `LockedLimiter`, closing as an event); `Allow`, `Current` and
the decay tick each run as one critical section under the mutex, so their
effect on the shared state is a plain function of this record. -/
structure Limiter where
  limit : Nat
  current : Nat
  interval : Int
  gradualRecovery : Bool
deriving DecidableEq

/-- The three exported functional options (options.go). -/
inductive Opt where
  | WithMaxLimit (n : Nat)
  | WithInterval (d : Int)
  | WithGradualRecovery
deriving DecidableEq

/-- Applying one option mutator to the limiter under construction
(options.go).  A Go caller can only pass a `uint64` limit and an `int64`
duration, hence the wraps. -/
def applyOpt (l : Limiter) : Opt → Limiter
  | Opt.WithMaxLimit n => { l with limit := n % uint64Mod }
  | Opt.WithInterval d => { l with interval := wrapInt64 d }
  | Opt.WithGradualRecovery => { l with gradualRecovery := true }

/-- Go `New` (limiter.go lines 34-51): the defaulted state with the option
mutators applied in order.  (`New` also spawns the decay goroutine, whose
body is `cleanupSetup` / `decayStep` below.) -/
def New (opts : List Opt) : Limiter :=
  opts.foldl applyOpt
    { limit := Infinite
      current := 0
      interval := defaultInterval
      gradualRecovery := false }

/-- Go `Allow` (limiter.go lines 56-71), the body of the single critical
section under `l.mu.Lock()`: compute `allow := current < limit`, increment
`current` when `allow`, return `allow`.  The increment cannot wrap: it runs
only when `current < limit`, and every stored `limit` is below `2 ^ 64`. -/
def Allow (l : Limiter) : Bool × Limiter :=
  let allow : Bool := decide (l.current < l.limit)
  (allow, if allow then { l with current := l.current + 1 } else l)

/-- Go `Current` (limiter.go lines 74-79): read `current` under the read lock. -/
def Current (l : Limiter) : Nat := l.current

/-- One decay tick, the body of the `<-time.After` case in
`cleanupLimitAfterInterval` (limiter.go lines 129-140).  In gradual mode the
source subtracts `repair` from the `uint64` counter and then tests
`l.current < 0`; that guard is kept verbatim — on an unsigned counter
(`Nat` here) it never fires. -/
def cleanupTick (l : Limiter) (repair : Nat) : Limiter :=
  if l.gradualRecovery then
    let c := sub64 l.current repair
    let c2 := if c < 0 then 0 else c
    { l with current := c2 }
  else
    { l with current := 0 }

/-- The prologue of `cleanupLimitAfterInterval` (limiter.go lines 114-124):
reads `interval` and `repair := l.limit`; in gradual mode computes
`x := int(interval.Seconds()) / int(repair)` (a run-time panic — `none` —
when `int(repair) = 0`), rebinds the local `interval` to `time.Second * x`
nanoseconds and sets `repair := 1`.  Returns the local `(interval, repair)`
pair the loop body then has in scope. -/
def cleanupSetup (l : Limiter) : Option (Int × Nat) :=
  if l.gradualRecovery then
    match goDiv (intSeconds l.interval) (toInt64 l.limit) with
    | none => none
    | some x => some (1000000000 * x, 1)
  else
    some (l.interval, l.limit)

/-- The duration the decay loop actually hands to `time.After` each
iteration (limiter.go line 128): the field `l.interval`, not the local
`interval` computed by the prologue. -/
def tickWait (l : Limiter) : Int := l.interval

/-- The decay tick with the `repair` value the running loop uses: `1` in
gradual mode (set by the prologue), otherwise the ceiling (unused, since the
fixed-window branch assigns `current = 0`). -/
def decayStep (l : Limiter) : Limiter :=
  cleanupTick l (if l.gradualRecovery then 1 else l.limit)

/-- One iteration of the decay loop's `select` (limiter.go lines 126-144):
`none` means the `<-l.done` case fired and the goroutine returned. -/
inductive DecaySel where
  | timer
  | stop
deriving DecidableEq

def decayIter (sel : DecaySel) (l : Limiter) : Option Limiter :=
  match sel with
  | DecaySel.timer => some (decayStep l)
  | DecaySel.stop => none

/-- An operation interleaved on the shared state: one `Allow` critical
section or one decay tick. -/
inductive Op where
  | allowOp
  | decayOp
deriving DecidableEq

/-- The sequence of `Allow` results along a trace of operations. -/
def traceResults : Limiter → List Op → List Bool
  | _, [] => []
  | l, Op.allowOp :: rest => (Allow l).1 :: traceResults (Allow l).2 rest
  | l, Op.decayOp :: rest => traceResults (decayStep l) rest

/-- The state after running a trace of operations. -/
def execTrace : Limiter → List Op → Limiter
  | l, [] => l
  | l, Op.allowOp :: rest => execTrace (Allow l).2 rest
  | l, Op.decayOp :: rest => execTrace (decayStep l) rest

/-- Number of `Allow` calls returning `true` along a trace. -/
def allowTrues (l : Limiter) (t : List Op) : Nat := (traceResults l t).count true

/-- Number of `Allow` calls returning `false` along a trace. -/
def allowFalses (l : Limiter) (t : List Op) : Nat := (traceResults l t).count false

/-- The limiter together with the number of outstanding read locks on
`l.mu` (readers that called `RLock` and have not called `RUnlock`). -/
structure LockedLimiter where
  lim : Limiter
  readers : Nat
deriving DecidableEq

/-- Outcome of one iteration of the polling goroutine spawned by `Wait`
(limiter.go lines 85-96): `sent` means the body took the
`l.current < l.limit` branch — it sent on the `allow` channel and broke out
of the loop; `looped` means it released the read lock and iterated. -/
inductive PollRes where
  | sent (s : LockedLimiter)
  | looped (s : LockedLimiter)
deriving DecidableEq

/-- One iteration of the `Wait` polling loop, verbatim from the source:
`RLock`; if `current < limit` send and `break` (note: no `RUnlock` on this
path); else `RUnlock` and continue. -/
def pollIter (s : LockedLimiter) : PollRes :=
  let s1 : LockedLimiter := { s with readers := s.readers + 1 }
  if s1.lim.current < s1.lim.limit then
    PollRes.sent s1
  else
    PollRes.looped { s1 with readers := s1.readers - 1 }

/-- Go `l.Allow()` as called from `Wait` (limiter.go line 102):
`l.mu.Lock()` must wait for every outstanding reader to unlock.  The polling
goroutine has already exited, so a leaked read lock is never released:
`none` models blocking forever. -/
def AllowLocked (s : LockedLimiter) : Option (Bool × LockedLimiter) :=
  if s.readers = 0 then
    some ((Allow s.lim).1, { lim := (Allow s.lim).2, readers := 0 })
  else
    none

/-- Which of the three `select` cases of `Wait` (limiter.go lines 98-105)
becomes ready first. -/
inductive WaitEvent where
  | ctxDone
  | allowReady
  | doneClosed
deriving DecidableEq

/-- The boolean a `Wait` call returns, as a function of the winning
`select` case and the shared state when the polling goroutine last acted:
`ctx.Done()` and `<-l.done` return `false`; `<-allow` is ready exactly when
the polling iteration took the `sent` path, after which `Wait` returns
`l.Allow()` — which blocks (`none`) while the leaked read lock is held. -/
def waitOutcome (ev : WaitEvent) (s : LockedLimiter) : Option Bool :=
  match ev with
  | WaitEvent.ctxDone => some false
  | WaitEvent.doneClosed => some false
  | WaitEvent.allowReady =>
    match pollIter s with
    | PollRes.sent s1 => (AllowLocked s1).map Prod.fst
    | PollRes.looped _ => none

/-- Whether the `Wait` polling loop exits within `fuel` iterations.  The
loop body reads only `l.current` and `l.limit` — neither `ctx` nor the
`done` channel — so on a state no other goroutine is mutating (after
`Close`, the decay goroutine has returned) the state argument is constant. -/
def pollLoopExits (fuel : Nat) (l : Limiter) : Bool :=
  match fuel with
  | 0 => false
  | fuel + 1 => if l.current < l.limit then true else pollLoopExits fuel l

/-! Helper lemmas. -/

theorem Allow_pos (l : Limiter) (h : l.current < l.limit) :
    Allow l = (true, { l with current := l.current + 1 }) := by
  simp [Allow, h]

theorem Allow_neg (l : Limiter) (h : ¬ l.current < l.limit) :
    Allow l = (false, l) := by
  simp [Allow, h]

theorem Allow_fst (l : Limiter) : (Allow l).1 = decide (l.current < l.limit) := rfl

theorem Allow_snd_limit (l : Limiter) : (Allow l).2.limit = l.limit := by
  by_cases h : l.current < l.limit
  · rw [Allow_pos l h]
  · rw [Allow_neg l h]

theorem cleanupTick_limit (l : Limiter) (repair : Nat) :
    (cleanupTick l repair).limit = l.limit := by
  by_cases h : l.gradualRecovery <;> simp [cleanupTick, h]

theorem decayStep_limit (l : Limiter) : (decayStep l).limit = l.limit :=
  cleanupTick_limit l _

theorem decayStep_fixed (l : Limiter) (h : l.gradualRecovery = false) :
    decayStep l = { l with current := 0 } := by
  simp [decayStep, cleanupTick, h]

theorem execTrace_limit (t : List Op) (l : Limiter) :
    (execTrace l t).limit = l.limit := by
  induction t generalizing l with
  | nil => rfl
  | cons op rest ih =>
    cases op with
    | allowOp => rw [execTrace, ih, Allow_snd_limit]
    | decayOp => rw [execTrace, ih, decayStep_limit]

theorem count_replicate_allows (n : Nat) (l : Limiter) :
    (traceResults l (List.replicate n Op.allowOp)).count true =
      min n (l.limit - l.current) := by
  induction n generalizing l with
  | zero => simp [traceResults]
  | succ n ih =>
    rw [List.replicate_succ, traceResults]
    by_cases h : l.current < l.limit
    · rw [Allow_pos l h]
      have h2 := ih { l with current := l.current + 1 }
      simp [List.count_cons] at h2 ⊢
      omega
    · rw [Allow_neg l h]
      have h2 := ih l
      simp [List.count_cons]
      omega

theorem length_replicate_allows (n : Nat) (l : Limiter) :
    (traceResults l (List.replicate n Op.allowOp)).length = n := by
  induction n generalizing l with
  | zero => rfl
  | succ n ih =>
    rw [List.replicate_succ, traceResults]
    simp [ih]

theorem count_false_eq (xs : List Bool) :
    xs.count false = xs.length - xs.count true := by
  induction xs with
  | nil => rfl
  | cons b rest ih =>
    have hle := List.count_le_length (a := true) (l := rest)
    cases b <;> simp [List.count_cons, ih] <;> omega

theorem no_decay_replicate (seg : List Op) (h : Op.decayOp ∉ seg) :
    seg = List.replicate seg.length Op.allowOp := by
  induction seg with
  | nil => rfl
  | cons op rest ih =>
    cases op with
    | allowOp =>
      simp only [List.length_cons, List.replicate_succ]
      exact congrArg (fun xs => Op.allowOp :: xs)
        (ih (fun hm => h (List.mem_cons_of_mem _ hm)))
    | decayOp => exact absurd (List.mem_cons_self _ _) h

theorem allowTrues_no_decay_le (l : Limiter) (seg : List Op) (h : Op.decayOp ∉ seg) :
    allowTrues l seg ≤ l.limit := by
  unfold allowTrues
  rw [no_decay_replicate seg h, count_replicate_allows]
  omega

theorem foldl_applyOpt_current (opts : List Opt) (l : Limiter) :
    (opts.foldl applyOpt l).current = l.current := by
  induction opts generalizing l with
  | nil => rfl
  | cons o rest ih =>
    rw [List.foldl_cons, ih]
    cases o <;> rfl

theorem New_current (opts : List Opt) : (New opts).current = 0 :=
  foldl_applyOpt_current opts _

theorem execTrace_replicate_current (n : Nat) (l : Limiter) (h : l.current ≤ l.limit) :
    (execTrace l (List.replicate n Op.allowOp)).current = min (l.current + n) l.limit := by
  induction n generalizing l with
  | zero =>
    show l.current = min (l.current + 0) l.limit
    omega
  | succ n ih =>
    rw [List.replicate_succ, execTrace]
    by_cases hc : l.current < l.limit
    · rw [Allow_pos l hc]
      have h2 := ih { l with current := l.current + 1 } hc
      simp at h2 ⊢
      omega
    · rw [Allow_neg l hc]
      have h2 := ih l h
      simp
      omega

/-! Claim theorems. -/

/-- C1: Allow atomically performs test-and-increment: when `current < limit`
it returns `true` and increments `current` by exactly 1; otherwise it
returns `false` and leaves the state unchanged. -/
theorem Allow_test_and_increment (l : Limiter) :
    (l.current < l.limit → Allow l = (true, { l with current := l.current + 1 })) ∧
    (¬ l.current < l.limit → Allow l = (false, l)) :=
  ⟨Allow_pos l, Allow_neg l⟩

/-- Witness for C1 at concrete states (admitted at `current = 0 < limit = 1`,
rejected at `current = 1`). -/
theorem Allow_test_and_increment_wit :
    Allow { limit := 1, current := 0, interval := 3600000000000, gradualRecovery := false } =
      (true, { limit := 1, current := 1, interval := 3600000000000, gradualRecovery := false }) ∧
    Allow { limit := 1, current := 1, interval := 3600000000000, gradualRecovery := false } =
      (false, { limit := 1, current := 1, interval := 3600000000000, gradualRecovery := false }) :=
  ⟨(Allow_test_and_increment _).1 (by decide), (Allow_test_and_increment _).2 (by decide)⟩

/-- C2: from the constructed state, along any trace of Allow calls and decay
ticks, the number of admitted calls in any decay-free segment never exceeds
the finite ceiling; and with ceiling `K < M` callers, exactly `K` succeed
and `M - K` fail. -/
theorem ceiling_invariant_and_exact_count (opts : List Opt) (t seg : List Op) (M : Nat)
    (hseg : Op.decayOp ∉ seg)
    (hfin : (New opts).limit < Infinite)
    (hM : (New opts).limit < M) :
    allowTrues (execTrace (New opts) t) seg ≤ (New opts).limit ∧
    allowTrues (New opts) (List.replicate M Op.allowOp) = (New opts).limit ∧
    allowFalses (New opts) (List.replicate M Op.allowOp) = M - (New opts).limit := by
  refine ⟨?_, ?_, ?_⟩
  · have h1 := allowTrues_no_decay_le (execTrace (New opts) t) seg hseg
    rw [execTrace_limit] at h1
    exact h1
  · unfold allowTrues
    rw [count_replicate_allows, New_current]
    omega
  · unfold allowFalses
    rw [count_false_eq, length_replicate_allows, count_replicate_allows, New_current]
    omega

/-- Witness for C2: ceiling 2, a trace with one decay tick, a decay-free
segment of three Allow calls, and `M = 5` callers. -/
theorem ceiling_invariant_and_exact_count_wit :
    allowTrues (execTrace (New [Opt.WithMaxLimit 2]) [Op.decayOp])
        [Op.allowOp, Op.allowOp, Op.allowOp] ≤ (New [Opt.WithMaxLimit 2]).limit ∧
    allowTrues (New [Opt.WithMaxLimit 2]) (List.replicate 5 Op.allowOp) =
      (New [Opt.WithMaxLimit 2]).limit ∧
    allowFalses (New [Opt.WithMaxLimit 2]) (List.replicate 5 Op.allowOp) =
      5 - (New [Opt.WithMaxLimit 2]).limit :=
  ceiling_invariant_and_exact_count [Opt.WithMaxLimit 2] [Op.decayOp]
    [Op.allowOp, Op.allowOp, Op.allowOp] 5 (by decide) (by decide) (by decide)

/-- C3 (code bug): a gradual-recovery decay tick taken at `current = 0` does
not leave `current = 0` — the unsigned counter wraps to `2 ^ 64 - 1`,
because the guard `if l.current < 0` in the source never fires on an
unsigned integer. -/
theorem gradual_tick_wraps_at_zero :
    (decayStep (New [Opt.WithMaxLimit 5, Opt.WithGradualRecovery])).current = 2 ^ 64 - 1 ∧
    ((2 : Nat) ^ 64 - 1 ≠ 0) :=
  ⟨by decide, by decide⟩

/-- C4 (code bug): with gradual recovery, ceiling 4 and interval 4s, the
prologue computes the sub-interval `interval / limit = 1s` into a local
variable, but the loop's timer waits on the field `l.interval = 4s`: the
period between decay ticks is the full interval, not `interval / limit`. -/
theorem gradual_period_ignores_subinterval :
    cleanupSetup (New [Opt.WithMaxLimit 4, Opt.WithInterval 4000000000,
        Opt.WithGradualRecovery]) = some (1000000000, 1) ∧
    tickWait (New [Opt.WithMaxLimit 4, Opt.WithInterval 4000000000,
        Opt.WithGradualRecovery]) = 4000000000 ∧
    tickWait (New [Opt.WithMaxLimit 4, Opt.WithInterval 4000000000,
        Opt.WithGradualRecovery]) ≠ 1000000000 :=
  ⟨by decide, by decide, by decide⟩

/-- C5 (code bug): the cancellation and closure cases of `Wait` return
`false`, but the admission case never returns at all: the polling goroutine
exits its loop holding the read lock, so the `l.Allow()` call blocks forever
(`none`) — `Wait` does not return `true` after claiming a slot. -/
theorem wait_admission_deadlock :
    waitOutcome WaitEvent.ctxDone { lim := New [Opt.WithMaxLimit 1], readers := 0 } =
      some false ∧
    waitOutcome WaitEvent.doneClosed { lim := New [Opt.WithMaxLimit 1], readers := 0 } =
      some false ∧
    waitOutcome WaitEvent.allowReady { lim := New [Opt.WithMaxLimit 1], readers := 0 } =
      none :=
  ⟨rfl, rfl, by decide⟩

/-- C6 (code bug): on the capacity-detected exit path the polling loop of
`Wait` leaves one read lock held (readers go from 0 to 1 and the loop
breaks without `RUnlock`); only the continue path releases the lock. -/
theorem poll_exit_holds_read_lock :
    pollIter { lim := New [Opt.WithMaxLimit 1], readers := 0 } =
      PollRes.sent { lim := New [Opt.WithMaxLimit 1], readers := 1 } ∧
    pollIter { lim := New [Opt.WithMaxLimit 0], readers := 0 } =
      PollRes.looped { lim := New [Opt.WithMaxLimit 0], readers := 0 } :=
  ⟨by decide, by decide⟩

/-- C7 (code bug): construction neither rejects nor normalizes gradual
recovery with a ceiling of 0 or Infinite: the constructed state keeps
`gradualRecovery = true` with `limit = 0`, the sub-interval computation then
divides by zero (a run-time panic, `none`), and with the Infinite ceiling
the `uint64 → int` conversion truncates the divisor to `-1`. -/
theorem gradual_misconfig_divzero :
    (New [Opt.WithMaxLimit 0, Opt.WithGradualRecovery]).gradualRecovery = true ∧
    (New [Opt.WithMaxLimit 0, Opt.WithGradualRecovery]).limit = 0 ∧
    cleanupSetup (New [Opt.WithMaxLimit 0, Opt.WithGradualRecovery]) = none ∧
    toInt64 (New [Opt.WithGradualRecovery]).limit = -1 :=
  ⟨by decide, by decide, by decide, by decide⟩

/-- C8 (code bug): after the lifecycle signal fires the decay loop's
`<-l.done` case returns, so the decay goroutine terminates; but the polling
goroutine spawned by `Wait` never reads `done` or `ctx` — on a saturated
limiter (ceiling 0) its loop never exits, for any number of iterations. -/
theorem close_stops_decay_not_poll :
    (∀ l : Limiter, decayIter DecaySel.stop l = none) ∧
    (∀ fuel : Nat, pollLoopExits fuel (New [Opt.WithMaxLimit 0]) = false) := by
  constructor
  · intro l
    rfl
  · intro fuel
    induction fuel with
    | zero => rfl
    | succ n ih =>
      show (if (New [Opt.WithMaxLimit 0]).current < (New [Opt.WithMaxLimit 0]).limit then true
            else pollLoopExits n (New [Opt.WithMaxLimit 0])) = false
      rw [if_neg (by decide), ih]

/-- C9: in fixed-window mode every decay tick sets `current` to 0 whatever
its prior value, and afterwards `n` Allow calls admit exactly
`min n limit` — Allow succeeds again until the ceiling is reached. -/
theorem fixed_window_tick (l : Limiter) (h : l.gradualRecovery = false) (n : Nat) :
    (decayStep l).current = 0 ∧
    allowTrues (decayStep l) (List.replicate n Op.allowOp) = min n l.limit := by
  have hd := decayStep_fixed l h
  constructor
  · rw [hd]
  · unfold allowTrues
    rw [count_replicate_allows, hd]
    simp

/-- Witness for C9: ceiling 3, prior `current = 2`, five Allow calls after
the tick. -/
theorem fixed_window_tick_wit :
    (decayStep { limit := 3, current := 2, interval := 0, gradualRecovery := false }).current
      = 0 ∧
    allowTrues (decayStep { limit := 3, current := 2, interval := 0, gradualRecovery := false })
      (List.replicate 5 Op.allowOp) = min 5 3 :=
  fixed_window_tick { limit := 3, current := 2, interval := 0, gradualRecovery := false } rfl 5

/-- C10 (amended): with the Infinite ceiling, Allow returns `true` and
increments the counter whenever `current < 2 ^ 64 - 1`; the unamended claim
fails once `current` itself reaches the sentinel value (see the
counterexample). -/
theorem infinite_limit_allow (l : Limiter) (hlim : l.limit = Infinite)
    (hcur : l.current < Infinite) :
    Allow l = (true, { l with current := l.current + 1 }) :=
  Allow_pos l (by rw [hlim]; exact hcur)

/-- Witness for C10 at the default-constructed limiter. -/
theorem infinite_limit_allow_wit :
    Allow (New []) = (true, { New [] with current := 1 }) :=
  infinite_limit_allow (New []) rfl (by decide)

/-- Counterexample to C10 as stated: after a sequence of `2 ^ 64 - 1`
prior Allow calls on a default (Infinite-ceiling) limiter, the counter has
reached the sentinel value and the next Allow call returns `false`. -/
theorem infinite_limit_allow_cex :
    (Allow (execTrace (New []) (List.replicate (2 ^ 64 - 1) Op.allowOp))).1 = false := by
  have hl : (execTrace (New []) (List.replicate (2 ^ 64 - 1) Op.allowOp)).limit = Infinite := by
    rw [execTrace_limit]
    rfl
  have hc : (execTrace (New []) (List.replicate (2 ^ 64 - 1) Op.allowOp)).current
      = 2 ^ 64 - 1 := by
    rw [execTrace_replicate_current _ _ (by decide)]
    simp [New, Infinite]
  rw [Allow_fst, hl, hc]
  simp [Infinite]

end RL
